import Mathlib

set_option autoImplicit false
set_option linter.unusedVariables false

/-!
Shallow embedding of `checkov/common/bridgecrew/platform_integration.py`
(class `BcPlatformIntegration`).

External effects are modelled as explicit inputs:
* the HTTP transport (`urllib3`) as an `HttpResponse` value describing
  what one `http.request` call did;
* `json.loads` output as a `RawBody` (either invalid text or a `JValue`);
* the S3 upload primitive (`boto3` `upload_file`) as an oracle function
  returning `none` on success or `some cause` for a raised exception;
* the filesystem (`os.walk`) as the enumeration of directory entries the
  walk yields.

Python exceptions are modelled by the `PyError` type; a method that can
raise returns an `Option PyError` (or `Except`) alongside its results.
All machine work is pure string/list manipulation, translated from the
source statement by statement.
-/

/-- JSON values as produced by `json.loads`. -/
inductive JValue where
  | null
  | bool (b : Bool)
  | num (n : Int)
  | str (s : String)
  | arr (elems : List JValue)
  | obj (fields : List (String × JValue))

/-- Python exception classes that the module can raise or propagate.
`exn` is a plain `Exception(msg)`; `nameError` models Python's
`UnboundLocalError` (a `NameError` subclass) for reading an unassigned
local; `invariantViolation` is the error class the spec taxonomy (section 7)
assigns to internal state inconsistencies such as a double commit. -/
inductive PyError where
  | httpError
  | clientError
  | jsonDecodeError
  | keyError (key : String)
  | typeError (key : String)
  | valueError (msg : String)
  | nameError (varName : String)
  | attributeError (msg : String)
  | exn (msg : String)
  | invariantViolation
deriving DecidableEq

/-- Spec section 7 taxonomy: `MalformedResponseError` covers a response body
that is not valid structured text (`JSONDecodeError`) or that lacks required
fields (`KeyError` on a response lookup). -/
def PyError.isMalformedResponse : PyError → Bool
  | .jsonDecodeError => true
  | .keyError _ => true
  | _ => false

/-- The decoded body of one HTTP exchange: either text that is not valid
JSON (so `json.loads` raises `JSONDecodeError`) or a parsed JSON value. -/
inductive RawBody where
  | invalid
  | json (v : JValue)

/-- What one `http.request` call did: raised `urllib3` `HTTPError`, or
returned a response object with `.status` and parseable-or-not `.data`. -/
inductive HttpResponse where
  | error
  | ok (status : Nat) (body : RawBody)

/-- Python `x == "Success"` on a decoded JSON value: string equality when
`x` is a string, `False` for every other runtime type. -/
def isSuccessToken : JValue → Bool
  | .str s => s == "Success"
  | _ => false

/-- First-match lookup in the field list of a JSON object (Python dict
lookup; the dicts produced by `json.loads` have unique keys). -/
def lookupField : List (String × JValue) → String → Option JValue
  | [], _ => none
  | (k2, v) :: rest, k => if k2 == k then some v else lookupField rest k

/-- Python subscript `v[k]` on a decoded JSON value: `KeyError` when the
object lacks the key, `TypeError` when the value is not a dict. -/
def jIndex : JValue → String → Except PyError JValue
  | .obj fields, k =>
      match lookupField fields k with
      | some v => .ok v
      | none => .error (.keyError k)
  | _, k => .error (.typeError k)

/-- Python truthiness of a decoded JSON value (top level only, as used by
`all([...])`): empty string, empty list, empty dict, zero, false and None
are falsy. -/
def jTruthy : JValue → Bool
  | .null => false
  | .bool b => b
  | .num n => n != 0
  | .str s => !s.isEmpty
  | .arr elems => !elems.isEmpty
  | .obj fields => !fields.isEmpty

/-- Split a character list at the first occurrence of `c`;
`none` when `c` does not occur. -/
def splitAtFirst (c : Char) : List Char → Option (List Char × List Char)
  | [] => none
  | x :: rest =>
      if x == c then some ([], rest)
      else
        match splitAtFirst c rest with
        | some (a, b) => some (x :: a, b)
        | none => none

/-- Python `s.split("/", 1)` unpacked into two names: `none` models the
`ValueError` of unpacking a one-element list (no slash present). -/
def splitFirstSlash (s : String) : Option (String × String) :=
  match splitAtFirst '/' s.data with
  | some (a, b) => some (String.mk a, String.mk b)
  | none => none

/-- Helper for `lastPathSegment`: accumulates the current segment. -/
def lastSegAux (cur : List Char) : List Char → List Char
  | [] => cur
  | x :: rest => if x == '/' then lastSegAux [] rest else lastSegAux (cur ++ [x]) rest

/-- Python `s.split("/")[-1]`: the substring after the last slash
(the whole string when no slash occurs). -/
def lastPathSegment (s : String) : String :=
  String.mk (lastSegAux [] s.data)

/-- `os.path.join(a, b)` for POSIX paths, two arguments. -/
def pjoin (a b : String) : String :=
  if b.data.head? == some '/' then b
  else if a.data.isEmpty then b
  else if a.data.getLast? == some '/' then a ++ b
  else a ++ "/" ++ b

/-- Join path components with slashes. -/
def joinSlash : List String → String
  | [] => ""
  | [x] => x
  | x :: rest => x ++ "/" ++ joinSlash rest

/-- Python `str(...)` of an optional string as an f-string renders it:
`None` for the unset value. -/
def fmtOpt : Option String → String
  | none => "None"
  | some s => s

/-- The S3 client object built by `boto3.client("s3", ...)`; construction
is local (no network call) and records the credential values and region. -/
structure S3Client where
  accessKeyId : JValue
  secretAccessKey : JValue
  sessionToken : JValue
  region : String

/-- One checkov scan report; its payload is opaque to this module, which
only stores and forwards it. -/
structure ScanReport where
  payload : String
deriving DecidableEq

/-- The mutable fields of `BcPlatformIntegration` (the Session). -/
structure BcState where
  bc_api_key : Option String
  s3_client : Option S3Client
  bucket : Option String
  credentials : Option JValue
  repo_path : Option String
  timestamp : Option String
  scan_reports : List ScanReport

/-- `BcPlatformIntegration.__init__`: every field unset. -/
def initState : BcState :=
  { bc_api_key := none, s3_client := none, bucket := none, credentials := none,
    repo_path := none, timestamp := none, scan_reports := [] }

/-- `DEFAULT_REGION = "us-west-2"`. -/
def DEFAULT_REGION : String := "us-west-2"

/-- `INTEGRATIONS_API_URL`. -/
def INTEGRATIONS_API_URL : String :=
  "https://www.bridgecrew.cloud/api/v1/integrations/types/checkov"

/--
`setup_bridgecrew_credentials(self, bc_api_key, repo_id)`, statement by
statement.  `net` is what the single `http.request` call did.  Returns the
post state and `none` on success, or `some e` for the exception `e` that
propagates (the `except` clauses only log and re-raise, so the raised
exception is unchanged; `KeyError` and `ValueError` are not caught and
propagate directly).  The `sleep(10)` settling delay has no state effect.
-/
def setup_bridgecrew_credentials (st : BcState) (bc_api_key repo_id : String)
    (net : HttpResponse) : BcState × Option PyError :=
  -- self.bc_api_key = bc_api_key  (before the try block)
  let st0 := { st with bc_api_key := some bc_api_key }
  match net with
  | .error => (st0, some .httpError)
  | .ok _status body =>
    match body with
    | .invalid => (st0, some .jsonDecodeError)
    | .json response =>
      -- repo_full_path = response["path"]
      match jIndex response "path" with
      | .error e => (st0, some e)
      | .ok pathVal =>
        match pathVal with
        | .str repo_full_path =>
          -- self.bucket, self.repo_path = repo_full_path.split("/", 1)
          match splitFirstSlash repo_full_path with
          | none => (st0, some (.valueError "not enough values to unpack"))
          | some (bucket, repo_path) =>
            -- self.timestamp = self.repo_path.split("/")[-1]
            let st1 := { st0 with bucket := some bucket, repo_path := some repo_path,
                                  timestamp := some (lastPathSegment repo_path) }
            -- self.credentials = response["creds"]
            match jIndex response "creds" with
            | .error e => (st1, some e)
            | .ok creds =>
              let st2 := { st1 with credentials := some creds }
              -- boto3.client("s3", aws_access_key_id=..., ...)
              match jIndex creds "AccessKeyId" with
              | .error e => (st2, some e)
              | .ok ak =>
                match jIndex creds "SecretAccessKey" with
                | .error e => (st2, some e)
                | .ok sk =>
                  match jIndex creds "SessionToken" with
                  | .error e => (st2, some e)
                  | .ok tk =>
                    let client : S3Client :=
                      { accessKeyId := ak, secretAccessKey := sk,
                        sessionToken := tk, region := DEFAULT_REGION }
                    ({ st2 with s3_client := some client }, none)
        | _ =>
          -- a non-string has no .split method
          (st0, some (.attributeError "split"))

/-- `is_integration_configured(self)`:
`all([self.repo_path, self.credentials, self.s3_client])`
under Python truthiness. -/
def is_integration_configured (st : BcState) : Bool :=
  (match st.repo_path with | some s => !s.isEmpty | none => false) &&
  (match st.credentials with | some v => jTruthy v | none => false) &&
  st.s3_client.isSome

/-- One outgoing platform request, as built by `commit_repository`:
`http.request("PUT", INTEGRATIONS_API_URL, body=json.dumps({"path":
self.repo_path, "branch": "master"}), ...)`. -/
structure NetCall where
  httpMethod : String
  url : String
  bodyPath : Option String
  bodyBranch : String
deriving DecidableEq

/-- The message of the `Exception` raised when the commit success condition
fails: it names the session path. -/
def commitFailMsg (st : BcState) : String :=
  "Failed to finalize repository " ++ fmtOpt st.repo_path ++ " in bridgecrew's platform"

/--
The exception (if any) that propagates out of `commit_repository` given
what the HTTP call did.  Mirrors the Python control flow including the
`finally` block, which always runs and whose own exception replaces any
pending one:

* `http.request` raised `HTTPError`: `request` is still `None`, so the
  `finally` test `request.status == 201` raises `AttributeError`
  (replacing the pending `HTTPError`);
* body not valid JSON (pending `JSONDecodeError`): `response` was never
  assigned; with status 201 the `finally` reads it and raises
  `UnboundLocalError` (modelled `nameError "response"`); with any other
  status the conjunction short-circuits and the `else` branch raises the
  generic failure `Exception` — either way the `JSONDecodeError` is lost;
* body parsed: with status 201, `response["result"]` may raise
  `KeyError`/`TypeError`; otherwise the success condition decides between
  a normal return and the failure `Exception`.
-/
def commitOutcome (st : BcState) (net : HttpResponse) : Option PyError :=
  match net with
  | .error => some (.attributeError "NoneType object has no attribute status")
  | .ok status body =>
    match body with
    | .invalid =>
        if status == 201 then some (.nameError "response")
        else some (.exn (commitFailMsg st))
    | .json response =>
        if status == 201 then
          match jIndex response "result" with
          | .error e => some e
          | .ok rv =>
              if isSuccessToken rv then none
              else some (.exn (commitFailMsg st))
        else some (.exn (commitFailMsg st))

/-- `commit_repository(self)`: issues exactly one platform request
(unconditionally, as the first statement of the `try` block), assigns no
session field, and either returns normally or raises per `commitOutcome`. -/
def commit_repository (st : BcState) (net : HttpResponse) :
    BcState × List NetCall × Option PyError :=
  (st,
   [{ httpMethod := "PUT", url := INTEGRATIONS_API_URL,
      bodyPath := st.repo_path, bodyBranch := "master" }],
   commitOutcome st net)

/-- Index of the last `.` in a character list, if any. -/
def lastDotIdx : List Char → Option Nat
  | [] => none
  | c :: rest =>
      match lastDotIdx rest with
      | some i => some (i + 1)
      | none => if c == '.' then some 0 else none

/-- `os.path.splitext` for a bare file name (no directory separator, as the
names in `os.walk` file lists are): splits at the last dot unless every
character before it is also a dot (so dotfiles have no extension). -/
def splitext (p : String) : String × String :=
  match lastDotIdx p.data with
  | none => (p, "")
  | some i =>
      if (p.data.take i).any (fun c => c != '.') then
        (String.mk (p.data.take i), String.mk (p.data.drop i))
      else (p, "")

/-- One `s3_client.upload_file(full_file_path, bucket, file_object_key)`
call, as issued by `_persist_file`. -/
structure UploadCall where
  src : String
  bucket : String
  key : String
deriving DecidableEq

/-- The failure surfaced by `_persist_file`: the log line names the file
path and the bucket, and the originating exception `cause` is re-raised. -/
structure UploadErr where
  filePath : String
  bucket : String
  cause : String
deriving DecidableEq

/--
`_persist_file(self, full_file_path, relative_file_path)` with the session
fields `repo_path` and `bucket` read from `self` passed explicitly and the
S3 upload primitive as the oracle `upload src bucket key` (`none` =
success, `some cause` = the exception the client raised).  Returns the
attempted call and the error, if any.
-/
def _persist_file (repo_path bucket : String)
    (upload : String → String → String → Option String)
    (full_file_path relative_file_path : String) : UploadCall × Option UploadErr :=
  let file_object_key := pjoin repo_path relative_file_path
  let call : UploadCall := { src := full_file_path, bucket := bucket, key := file_object_key }
  match upload full_file_path bucket file_object_key with
  | none => (call, none)
  | some cause =>
      (call, some { filePath := full_file_path, bucket := bucket, cause := cause })

/-- The absolute directory path `os.walk` reports for the directory
reached from `root_dir` through the subdirectory names `pre` (each level
joined with `os.path.join`). -/
def rootPathOf (root_dir : String) (pre : List String) : String :=
  pre.foldl pjoin root_dir

/-- `os.path.relpath(os.path.join(root_path, f), root_dir)` for a file `f`
in the walk directory reached through subdirectory names `pre`: the
relative path keeps the subdirectory chain. -/
def relPathOf (pre : List String) (f : String) : String :=
  joinSlash (pre ++ [f])

/--
The inner loop of `persist_repository` over one directory's `f_names`:
filter by extension against `SUPPORTED_FILE_EXTENSIONS` (the static policy
list `suppExts`), then `_persist_file`; a raised upload error aborts the
whole walk (the exception propagates out of both loops).
-/
def processFiles (repo_path bucket root_dir : String)
    (upload : String → String → String → Option String) (suppExts : List String)
    (pre : List String) : List String → List UploadCall × Option UploadErr
  | [] => ([], none)
  | file_path :: rest =>
      let file_extension := (splitext file_path).2
      if suppExts.contains file_extension then
        let full_file_path := pjoin (rootPathOf root_dir pre) file_path
        let relative_file_path := relPathOf pre file_path
        match _persist_file repo_path bucket upload full_file_path relative_file_path with
        | (call, none) =>
            let res := processFiles repo_path bucket root_dir upload suppExts pre rest
            (call :: res.1, res.2)
        | (call, some e) => ([call], some e)
      else processFiles repo_path bucket root_dir upload suppExts pre rest

/--
The outer loop of `persist_repository` over the entries `os.walk(root_dir)`
yields; each entry is the subdirectory chain from `root_dir` (empty for the
root itself) together with that directory's file names.  A raised upload
error aborts the remaining entries.
-/
def processWalk (repo_path bucket root_dir : String)
    (upload : String → String → String → Option String) (suppExts : List String) :
    List (List String × List String) → List UploadCall × Option UploadErr
  | [] => ([], none)
  | (pre, f_names) :: rest =>
      match processFiles repo_path bucket root_dir upload suppExts pre f_names with
      | (calls, none) =>
          let res := processWalk repo_path bucket root_dir upload suppExts rest
          (calls ++ res.1, res.2)
      | (calls, some e) => (calls, some e)

/--
`persist_repository(self, root_dir)`: walks the directory tree (the walk
enumeration is the input `walkEntries`), uploads the eligible files, and
assigns no session field.  `suppExts` is `SUPPORTED_FILE_EXTENSIONS`, an
external static policy table imported from `checkov.common.models.consts`.
The session fields are read from `self`; the theorems below are stated
over `processWalk` with those fields as plain strings.
-/
def persist_repository (st : BcState)
    (upload : String → String → String → Option String) (suppExts : List String)
    (root_dir : String) (walkEntries : List (List String × List String)) :
    BcState × List UploadCall × Option UploadErr :=
  (st, processWalk (fmtOpt st.repo_path) (fmtOpt st.bucket) root_dir upload suppExts walkEntries)

/-- Specification-side enumeration: the `(full path, relative path)` pairs
of exactly the files in the walk whose extension is in the supported set,
in walk order. -/
def eligibleEntries (root_dir : String) (suppExts : List String)
    (walkEntries : List (List String × List String)) : List (String × String) :=
  walkEntries.flatMap (fun e =>
    (e.2.filter (fun f => suppExts.contains (splitext f).2)).map (fun f =>
      (pjoin (rootPathOf root_dir e.1) f, relPathOf e.1 f)))

/-- The upload call a given eligible file produces: key =
session path joined with the path of the file relative to `root_dir`. -/
def callOf (repo_path bucket : String) (entry : String × String) : UploadCall :=
  { src := entry.1, bucket := bucket, key := pjoin repo_path entry.2 }

/-- Reference first-failure fold over a flat list of eligible
`(full, rel)` entries: attempt each in order, stop at the first failing
upload. -/
def specPersist (repo_path bucket : String)
    (upload : String → String → String → Option String) :
    List (String × String) → List UploadCall × Option UploadErr
  | [] => ([], none)
  | entry :: rest =>
      match _persist_file repo_path bucket upload entry.1 entry.2 with
      | (call, none) =>
          let res := specPersist repo_path bucket upload rest
          (call :: res.1, res.2)
      | (call, some e) => ([call], some e)

/-- Sequence two first-failure results: run the second only when the
first raised nothing. -/
def seqAbort (a b : List UploadCall × Option UploadErr) :
    List UploadCall × Option UploadErr :=
  match a.2 with
  | none => (a.1 ++ b.1, b.2)
  | some e => (a.1, some e)

/-- Modelled from the spec: the generic tree-shaped value the merge of
section 4.4 / section 9 operates on — a mapping of string keys to values
that are either scalars or submappings.  It models the nested dict
documents (`reduced_scan_reports`, `checks_metadata_paths`) produced by
the wrapper module, whose sources are not part of this repository
snapshot. -/
inductive MTree where
  | scalar (s : String)
  | node (es : List (String × MTree))

/-- Python dict lookup on the entry list of a mapping node. -/
def lookupKey : List (String × MTree) → String → Option MTree
  | [], _ => none
  | (k2, v) :: rest, k => if k2 == k then some v else lookupKey rest k

mutual
/-- Modelled from the spec: `dpath.util.merge(dst, src)` (an external
library call) as section 4.4 / section 9 describe it — a recursive
structural merge: mapping values are combined recursively; a scalar (or
any non-mapping) source value takes precedence at its sub-path; keys only
in the destination are kept in place; keys only in the source are
appended in source order. -/
def mergeT : MTree → MTree → MTree
  | _, .scalar x => .scalar x
  | .scalar _, .node es => .node es
  | .node ds, .node es => .node (mergeGo ds es)
termination_by d s => (sizeOf s, 0, 0)

/-- Fold the source entries into the destination entry list, one at a
time, left to right. -/
def mergeGo : List (String × MTree) → List (String × MTree) → List (String × MTree)
  | ds, [] => ds
  | ds, (k, v) :: rest => mergeGo (updateOrAppend ds k v) rest
termination_by ds es => (sizeOf es, 1, 0)

/-- Merge one source entry into the destination entry list: merge into the
first entry with the same key in place, or append when the key is new. -/
def updateOrAppend : List (String × MTree) → String → MTree → List (String × MTree)
  | [], k, v => [(k, v)]
  | (k2, v2) :: rest, k, v =>
      if k2 == k then (k2, mergeT v2 v) :: rest
      else (k2, v2) :: updateOrAppend rest k v
termination_by ds k v => (sizeOf v, 1, sizeOf ds)
end

/-- Follow a key path down a document tree. -/
def getPath : MTree → List String → Option MTree
  | t, [] => some t
  | .scalar _, _ :: _ => none
  | .node es, k :: p =>
      match lookupKey es k with
      | none => none
      | some v => getPath v p

/-- `OutsideB s p` holds when the nonempty path `p` leaves the key
structure of the merge source `s` before `s` ends: at some step along `p`
the current source subtree is a mapping that lacks the next key.  These
are exactly the paths not named by the source map: the merge leaves the
destination unchanged at them. -/
def OutsideB : MTree → List String → Bool
  | _, [] => false
  | .scalar _, _ :: _ => false
  | .node es, k :: p =>
      match lookupKey es k with
      | none => true
      | some v => OutsideB v p

/-- `true` when `k` is not a key of the entry list. -/
def keyNotMem (k : String) : List (String × MTree) → Bool
  | [] => true
  | (k2, _) :: rest => if k2 == k then false else keyNotMem k rest

/-- Well-formed document: at every mapping node the keys are distinct
(as they are in any tree decoded from Python dicts, whose keys are
unique). -/
def WFb : MTree → Bool
  | .scalar _ => true
  | .node [] => true
  | .node ((k, v) :: rest) => keyNotMem k rest && WFb v && WFb (.node rest)

/--
`persist_scan_results(self, scan_reports)`.  The wrapper functions
`reduce_scan_reports` and `enrich_and_persist_checks_metadata` are
imported from `.wrapper`, whose source is not part of this repository
snapshot; they are passed as opaque inputs producing the two documents.
The method assigns `self.scan_reports = scan_reports`, merges the
metadata path map into the reduced report with `dpath.util.merge`
(modelled by `mergeT`), and uploads the merged document
(`persist_checks_results`, also external).  Returns the post state and
the merged document that is uploaded.
-/
def persist_scan_results (st : BcState) (scan_reports : List ScanReport)
    (reduce_scan_reports : List ScanReport → MTree)
    (enrich_and_persist_checks_metadata : List ScanReport → MTree) :
    BcState × MTree :=
  let st1 := { st with scan_reports := scan_reports }
  let reduced_scan_reports := reduce_scan_reports scan_reports
  let checks_metadata_paths := enrich_and_persist_checks_metadata scan_reports
  (st1, mergeT reduced_scan_reports checks_metadata_paths)

/-- The spec's pair invariant on the Session: `repo_path` (the session
path) and `credentials` are either both unset or both set. -/
def sessionPairInvariant (st : BcState) : Bool :=
  st.repo_path.isSome == st.credentials.isSome

/-- Concrete full credentials object for the concrete-input theorems. -/
def credsFull : JValue :=
  .obj [("AccessKeyId", .str "AK"), ("SecretAccessKey", .str "SK"),
        ("SessionToken", .str "ST")]

/-- A well-formed exchange response whose `path` has no characters after
its first slash, so the session path comes out empty. -/
def respNoSessionPath : JValue :=
  .obj [("path", .str "acme-bucket/"), ("creds", credsFull)]

/-- An exchange response with a splittable `path` but no `creds` field. -/
def respMissingCreds : JValue :=
  .obj [("path", .str "acme-bucket/acme/repo/ts")]

/-- A valid exchange response with a nonempty session path. -/
def respValid : JValue :=
  .obj [("path", .str "acme-bucket/acme/repo/ts"), ("creds", credsFull)]

/-- The session after a successful credential setup on `respValid`
(`repo_path = "acme/repo/ts"`, `bucket = "acme-bucket"`). -/
def configuredState : BcState :=
  (setup_bridgecrew_credentials initState "api-key" "acme/repo"
    (.ok 200 (.json respValid))).1

/-- A commit response the platform accepts: HTTP 201 with result Success. -/
def successNet : HttpResponse := .ok 201 (.json (.obj [("result", .str "Success")]))

/-- Concrete walk used by the C5 witness: two directories, three files,
two of them with a supported extension. -/
def walkEx : List (List String × List String) :=
  [([], ["main.tf", "README.md"]), (["modules"], ["net.tf"])]

/-- Concrete five-file walk used by the C6 witness. -/
def walkEx5 : List (List String × List String) :=
  [([], ["a.tf", "b.tf", "c.tf", "d.tf", "e.tf"])]

/-- Upload oracle for the C6 witness: the storage PUT for `c.tf` fails. -/
def uploadFailC (src bucket key : String) : Option String :=
  if src == "/repo/c.tf" then some "AccessDenied" else none

/-- Concrete destination document for the C7 witness. -/
def dEx : MTree :=
  .node [("a", .scalar "1"), ("b", .node [("x", .scalar "2")])]

/-- Concrete metadata path map for the C7 witness. -/
def sEx : MTree :=
  .node [("b", .node [("x", .scalar "3")])]


/-! ## Theorems -/

/-- Helper: a Python subscript on a decoded JSON value can only fail with
a `KeyError` or `TypeError` naming the requested key. -/
theorem jIndex_error_shape (v : JValue) (k : String) (e : PyError)
    (h : jIndex v k = .error e) : e = .keyError k ∨ e = .typeError k := by
  cases v with
  | obj fields =>
      simp only [jIndex] at h
      cases h2 : lookupField fields k with
      | none => rw [h2] at h; exact Or.inl (Except.error.inj h).symm
      | some w => rw [h2] at h; cases h
  | null => exact Or.inr (Except.error.inj h).symm
  | bool b => exact Or.inr (Except.error.inj h).symm
  | num n => exact Or.inr (Except.error.inj h).symm
  | str s => exact Or.inr (Except.error.inj h).symm
  | arr xs => exact Or.inr (Except.error.inj h).symm

/-- C10: there is a well-formed credential-exchange response (valid JSON
with a `path` string having nothing after its first slash and a full
`creds` object) on which `setup_bridgecrew_credentials` returns
successfully, yet `is_integration_configured()` afterwards returns false:
the empty session path is falsy under `all([...])`. -/
theorem c10_empty_session_path_not_configured :
    (setup_bridgecrew_credentials initState "api-key" "acme/repo"
        (.ok 200 (.json respNoSessionPath))).2 = none ∧
    (setup_bridgecrew_credentials initState "api-key" "acme/repo"
        (.ok 200 (.json respNoSessionPath))).1.repo_path = some "" ∧
    is_integration_configured
      (setup_bridgecrew_credentials initState "api-key" "acme/repo"
        (.ok 200 (.json respNoSessionPath))).1 = false :=
  ⟨rfl, rfl, rfl⟩

/-- C1 counterexample: a response that is valid in the claim's sense (a
JSON body with a `path` string and a full `creds` object) on which setup
succeeds but a subsequent `is_integration_configured()` returns false,
refuting the claim's first half as stated. -/
theorem c1_counterexample_valid_but_not_configured :
    (setup_bridgecrew_credentials initState "key-0" "org/repo"
        (.ok 200 (.json (.obj [("path", .str "bkt0/"),
          ("creds", .obj [("AccessKeyId", .str "A0"), ("SecretAccessKey", .str "S0"),
            ("SessionToken", .str "T0")])])))).2 = none ∧
    is_integration_configured
      (setup_bridgecrew_credentials initState "key-0" "org/repo"
        (.ok 200 (.json (.obj [("path", .str "bkt0/"),
          ("creds", .obj [("AccessKeyId", .str "A0"), ("SecretAccessKey", .str "S0"),
            ("SessionToken", .str "T0")])])))).1 = false :=
  ⟨rfl, rfl⟩

/-- C1 (amended): for every valid credential-exchange response whose
`path` contains a separator with a nonempty session path after it, setup
succeeds and a subsequent `is_integration_configured()` returns true; for
every malformed response (invalid JSON, missing `path`, missing `creds`),
setup fails with an error of the malformed-response class and a
subsequent `is_integration_configured()` returns false. -/
theorem c1_setup_and_configured :
    (∀ (key repo p bk rest : String) (status : Nat) (av sv tv : JValue),
      splitFirstSlash p = some (bk, rest) → rest ≠ "" →
      (setup_bridgecrew_credentials initState key repo
          (.ok status (.json (.obj [("path", .str p),
            ("creds", .obj [("AccessKeyId", av), ("SecretAccessKey", sv),
              ("SessionToken", tv)])])))).2 = none ∧
      is_integration_configured
        (setup_bridgecrew_credentials initState key repo
          (.ok status (.json (.obj [("path", .str p),
            ("creds", .obj [("AccessKeyId", av), ("SecretAccessKey", sv),
              ("SessionToken", tv)])])))).1 = true) ∧
    (∀ (key repo : String) (status : Nat),
      (setup_bridgecrew_credentials initState key repo (.ok status .invalid)).2 =
        some .jsonDecodeError ∧
      PyError.isMalformedResponse .jsonDecodeError = true ∧
      is_integration_configured
        (setup_bridgecrew_credentials initState key repo (.ok status .invalid)).1 = false) ∧
    (∀ (key repo : String) (status : Nat) (fields : List (String × JValue)),
      lookupField fields "path" = none →
      (setup_bridgecrew_credentials initState key repo
          (.ok status (.json (.obj fields)))).2 = some (.keyError "path") ∧
      PyError.isMalformedResponse (.keyError "path") = true ∧
      is_integration_configured
        (setup_bridgecrew_credentials initState key repo
          (.ok status (.json (.obj fields)))).1 = false) ∧
    (∀ (key repo p bk rest : String) (status : Nat) (fields : List (String × JValue)),
      lookupField fields "path" = some (.str p) →
      splitFirstSlash p = some (bk, rest) →
      lookupField fields "creds" = none →
      (setup_bridgecrew_credentials initState key repo
          (.ok status (.json (.obj fields)))).2 = some (.keyError "creds") ∧
      PyError.isMalformedResponse (.keyError "creds") = true ∧
      is_integration_configured
        (setup_bridgecrew_credentials initState key repo
          (.ok status (.json (.obj fields)))).1 = false) := by
  refine ⟨?_, ?_, ?_, ?_⟩
  · intro key repo p bk rest status av sv tv hsplit hne
    have hb : rest.isEmpty = false := by
      cases hb2 : rest.isEmpty
      · rfl
      · exact absurd ((String.isEmpty_iff rest).mp hb2) hne
    constructor
    · simp [setup_bridgecrew_credentials, jIndex, lookupField, hsplit]
    · simp [setup_bridgecrew_credentials, jIndex, lookupField, hsplit,
        is_integration_configured, jTruthy, hb]
  · intro key repo status
    exact ⟨rfl, rfl, rfl⟩
  · intro key repo status fields h
    refine ⟨?_, rfl, ?_⟩
    · simp [setup_bridgecrew_credentials, jIndex, h]
    · simp [setup_bridgecrew_credentials, jIndex, h, is_integration_configured, initState]
  · intro key repo p bk rest status fields h1 h2 h3
    refine ⟨?_, rfl, ?_⟩
    · simp [setup_bridgecrew_credentials, jIndex, h1, h2, h3]
    · simp [setup_bridgecrew_credentials, jIndex, h1, h2, h3,
        is_integration_configured, initState]

/-- C1 witness: the amended theorem applied at one concrete input per
conjunct. -/
theorem c1_setup_and_configured_witness :
    ((setup_bridgecrew_credentials initState "k" "o/r"
        (.ok 200 (.json (.obj [("path", .str "bkt/sess/ts"),
          ("creds", .obj [("AccessKeyId", .str "A"), ("SecretAccessKey", .str "S"),
            ("SessionToken", .str "T")])])))).2 = none ∧
      is_integration_configured
        (setup_bridgecrew_credentials initState "k" "o/r"
          (.ok 200 (.json (.obj [("path", .str "bkt/sess/ts"),
            ("creds", .obj [("AccessKeyId", .str "A"), ("SecretAccessKey", .str "S"),
              ("SessionToken", .str "T")])])))).1 = true) ∧
    ((setup_bridgecrew_credentials initState "k" "o/r" (.ok 200 .invalid)).2 =
        some .jsonDecodeError ∧
      PyError.isMalformedResponse .jsonDecodeError = true ∧
      is_integration_configured
        (setup_bridgecrew_credentials initState "k" "o/r" (.ok 200 .invalid)).1 = false) ∧
    ((setup_bridgecrew_credentials initState "k" "o/r"
        (.ok 200 (.json (.obj [("creds", credsFull)])))).2 = some (.keyError "path") ∧
      PyError.isMalformedResponse (.keyError "path") = true ∧
      is_integration_configured
        (setup_bridgecrew_credentials initState "k" "o/r"
          (.ok 200 (.json (.obj [("creds", credsFull)])))).1 = false) ∧
    ((setup_bridgecrew_credentials initState "k" "o/r"
        (.ok 200 (.json respMissingCreds))).2 = some (.keyError "creds") ∧
      PyError.isMalformedResponse (.keyError "creds") = true ∧
      is_integration_configured
        (setup_bridgecrew_credentials initState "k" "o/r"
          (.ok 200 (.json respMissingCreds))).1 = false) :=
  ⟨c1_setup_and_configured.1 "k" "o/r" "bkt/sess/ts" "bkt" "sess/ts" 200
      (.str "A") (.str "S") (.str "T") rfl (by decide),
   c1_setup_and_configured.2.1 "k" "o/r" 200,
   c1_setup_and_configured.2.2.1 "k" "o/r" 200 [("creds", credsFull)] rfl,
   c1_setup_and_configured.2.2.2 "k" "o/r" "acme-bucket/acme/repo/ts" "acme-bucket"
      "acme/repo/ts" 200 [("path", .str "acme-bucket/acme/repo/ts")] rfl rfl rfl⟩

/-- C8 counterexample: a setup failure that leaves the session partially
initialized.  The response has a valid, splittable `path` but no `creds`
field: `repo_path` is assigned before the `KeyError` on `creds`, so the
session ends with the path set and the credentials unset. -/
theorem c8_counterexample_partial_initialization :
    sessionPairInvariant initState = true ∧
    (setup_bridgecrew_credentials initState "api-key" "acme/repo"
        (.ok 200 (.json respMissingCreds))).1.repo_path = some "acme/repo/ts" ∧
    (setup_bridgecrew_credentials initState "api-key" "acme/repo"
        (.ok 200 (.json respMissingCreds))).1.credentials = none ∧
    sessionPairInvariant
      (setup_bridgecrew_credentials initState "api-key" "acme/repo"
        (.ok 200 (.json respMissingCreds))).1 = false :=
  ⟨rfl, rfl, rfl, rfl⟩

/-- C8 (amended): the pair invariant (`repo_path` and `credentials` both
unset or both set) holds initially, is preserved by every other
operation, and holds after every `setup_bridgecrew_credentials` outcome
from a fresh session except the one failure where the response carries a
splittable `path` but no `creds` field (outcome `KeyError("creds")`):
there the session is left partially initialized. -/
theorem c8_pair_invariant :
    sessionPairInvariant initState = true ∧
    (∀ (key repo : String) (net : HttpResponse),
      ((setup_bridgecrew_credentials initState key repo net).2 ≠ some (.keyError "creds") →
        sessionPairInvariant (setup_bridgecrew_credentials initState key repo net).1 = true) ∧
      ((setup_bridgecrew_credentials initState key repo net).2 = some (.keyError "creds") →
        (setup_bridgecrew_credentials initState key repo net).1.repo_path.isSome = true ∧
        (setup_bridgecrew_credentials initState key repo net).1.credentials = none)) ∧
    (∀ st upload suppExts root_dir walkEntries,
      sessionPairInvariant (persist_repository st upload suppExts root_dir walkEntries).1 =
        sessionPairInvariant st) ∧
    (∀ st reports rf ef,
      sessionPairInvariant (persist_scan_results st reports rf ef).1 =
        sessionPairInvariant st) ∧
    (∀ st net, sessionPairInvariant (commit_repository st net).1 = sessionPairInvariant st) := by
  refine ⟨rfl, ?_, fun st upload suppExts root_dir walkEntries => rfl,
    fun st reports rf ef => rfl, fun st net => rfl⟩
  intro key repo net
  cases net with
  | error => exact ⟨fun _ => rfl, fun h => by cases h⟩
  | ok status body =>
    cases body with
    | invalid => exact ⟨fun _ => rfl, fun h => by cases h⟩
    | json response =>
      cases response with
      | null => exact ⟨fun _ => rfl, fun h => by cases h⟩
      | bool b => exact ⟨fun _ => rfl, fun h => by cases h⟩
      | num n => exact ⟨fun _ => rfl, fun h => by cases h⟩
      | str s => exact ⟨fun _ => rfl, fun h => by cases h⟩
      | arr xs => exact ⟨fun _ => rfl, fun h => by cases h⟩
      | obj fields =>
        cases h1 : lookupField fields "path" with
        | none =>
            constructor
            · intro _; simp [setup_bridgecrew_credentials, jIndex, h1,
                sessionPairInvariant, initState]
            · intro h; simp [setup_bridgecrew_credentials, jIndex, h1] at h
        | some pv =>
          cases pv with
          | str p =>
            cases h2 : splitFirstSlash p with
            | none =>
                constructor
                · intro _; simp [setup_bridgecrew_credentials, jIndex, h1, h2,
                    sessionPairInvariant, initState]
                · intro h; simp [setup_bridgecrew_credentials, jIndex, h1, h2] at h
            | some pair =>
              cases h3 : lookupField fields "creds" with
              | none =>
                  constructor
                  · intro hne
                    exact absurd (by simp [setup_bridgecrew_credentials, jIndex,
                      h1, h2, h3]) hne
                  · intro _
                    constructor
                    · simp [setup_bridgecrew_credentials, jIndex, h1, h2, h3]
                    · simp [setup_bridgecrew_credentials, jIndex, h1, h2, h3, initState]
              | some cv =>
                  have hmain : sessionPairInvariant
                      (setup_bridgecrew_credentials initState key repo
                        (.ok status (.json (.obj fields)))).1 = true ∧
                      (setup_bridgecrew_credentials initState key repo
                        (.ok status (.json (.obj fields)))).2 ≠ some (.keyError "creds") := by
                    cases cv with
                    | obj fs3 =>
                        cases h4 : lookupField fs3 "AccessKeyId" with
                        | none =>
                            simp [setup_bridgecrew_credentials, jIndex, h1, h2, h3, h4,
                              sessionPairInvariant]
                        | some ak =>
                          cases h5 : lookupField fs3 "SecretAccessKey" with
                          | none =>
                              simp [setup_bridgecrew_credentials, jIndex, h1, h2, h3, h4,
                                h5, sessionPairInvariant]
                          | some sk =>
                            cases h6 : lookupField fs3 "SessionToken" with
                            | none =>
                                simp [setup_bridgecrew_credentials, jIndex, h1, h2, h3,
                                  h4, h5, h6, sessionPairInvariant]
                            | some tk =>
                                simp [setup_bridgecrew_credentials, jIndex, h1, h2, h3,
                                  h4, h5, h6, sessionPairInvariant]
                    | null =>
                        simp [setup_bridgecrew_credentials, jIndex, h1, h2, h3,
                          sessionPairInvariant]
                    | bool b =>
                        simp [setup_bridgecrew_credentials, jIndex, h1, h2, h3,
                          sessionPairInvariant]
                    | num n =>
                        simp [setup_bridgecrew_credentials, jIndex, h1, h2, h3,
                          sessionPairInvariant]
                    | str s =>
                        simp [setup_bridgecrew_credentials, jIndex, h1, h2, h3,
                          sessionPairInvariant]
                    | arr xs =>
                        simp [setup_bridgecrew_credentials, jIndex, h1, h2, h3,
                          sessionPairInvariant]
                  exact ⟨fun _ => hmain.1, fun h => absurd h hmain.2⟩
          | null =>
              constructor
              · intro _; simp [setup_bridgecrew_credentials, jIndex, h1,
                  sessionPairInvariant, initState]
              · intro h; simp [setup_bridgecrew_credentials, jIndex, h1] at h
          | bool b =>
              constructor
              · intro _; simp [setup_bridgecrew_credentials, jIndex, h1,
                  sessionPairInvariant, initState]
              · intro h; simp [setup_bridgecrew_credentials, jIndex, h1] at h
          | num n =>
              constructor
              · intro _; simp [setup_bridgecrew_credentials, jIndex, h1,
                  sessionPairInvariant, initState]
              · intro h; simp [setup_bridgecrew_credentials, jIndex, h1] at h
          | arr xs =>
              constructor
              · intro _; simp [setup_bridgecrew_credentials, jIndex, h1,
                  sessionPairInvariant, initState]
              · intro h; simp [setup_bridgecrew_credentials, jIndex, h1] at h
          | obj fs2 =>
              constructor
              · intro _; simp [setup_bridgecrew_credentials, jIndex, h1,
                  sessionPairInvariant, initState]
              · intro h; simp [setup_bridgecrew_credentials, jIndex, h1] at h

/-- C8 witness: the amended theorem applied at a succeeding setup and at
the partial-initialization failure. -/
theorem c8_pair_invariant_witness :
    sessionPairInvariant
      (setup_bridgecrew_credentials initState "api-key" "acme/repo"
        (.ok 200 (.json respValid))).1 = true ∧
    ((setup_bridgecrew_credentials initState "api-key" "acme/repo"
        (.ok 200 (.json respMissingCreds))).1.repo_path.isSome = true ∧
      (setup_bridgecrew_credentials initState "api-key" "acme/repo"
        (.ok 200 (.json respMissingCreds))).1.credentials = none) :=
  ⟨(c8_pair_invariant.2.1 "api-key" "acme/repo" (.ok 200 (.json respValid))).1
      (by decide),
   (c8_pair_invariant.2.1 "api-key" "acme/repo" (.ok 200 (.json respMissingCreds))).2
      (by decide)⟩

/-- C9 counterexample: `persist_scan_results` mutates the session after a
successful setup — it assigns `self.scan_reports = scan_reports`, so the
`scan_reports` field differs after the call. -/
theorem c9_counterexample_scan_reports_mutated :
    configuredState.scan_reports = [] ∧
    ((persist_scan_results configuredState [{ payload := "report-1" }]
        (fun _ => .node []) (fun _ => .node [])).1).scan_reports =
      [{ payload := "report-1" }] :=
  ⟨rfl, rfl⟩

/-- C9 (amended): `persist_repository` and `commit_repository` leave every
session field unchanged; `persist_scan_results` leaves every field except
`scan_reports` unchanged and overwrites `scan_reports` with its argument. -/
theorem c9_frame_conditions :
    (∀ st upload suppExts root_dir walkEntries,
      (persist_repository st upload suppExts root_dir walkEntries).1 = st) ∧
    (∀ st net, (commit_repository st net).1 = st) ∧
    (∀ st reports rf ef,
      (persist_scan_results st reports rf ef).1 = { st with scan_reports := reports }) :=
  ⟨fun _ _ _ _ _ => rfl, fun _ _ => rfl, fun _ _ _ _ => rfl⟩

/-- C3 counterexample: after a successful commit, a second call to
`commit_repository` performs another network request (one call in its
trace, not zero) and raises nothing — in particular no
`InvariantViolation`. -/
theorem c3_counterexample_second_commit_goes_out :
    (commit_repository configuredState successNet).2.2 = none ∧
    ((commit_repository (commit_repository configuredState successNet).1
        successNet).2.1).length = 1 ∧
    (commit_repository (commit_repository configuredState successNet).1
        successNet).2.2 = none :=
  ⟨rfl, rfl, rfl⟩

/-- C3 (amended): `commit_repository` keeps no Committed state: every
call, including a second call on a session whose first commit succeeded,
performs exactly one network request, leaves the session unchanged, and
never raises `InvariantViolation`; the outcome is determined by the new
response alone. -/
theorem c3_no_double_commit_guard :
    (∀ st net, ((commit_repository st net).2.1).length = 1 ∧
      (commit_repository st net).1 = st) ∧
    (∀ st net, (commit_repository st net).2.2 ≠ some .invariantViolation) := by
  refine ⟨fun st net => ⟨rfl, rfl⟩, ?_⟩
  intro st net h
  cases net with
  | error => cases h
  | ok status body =>
    cases body with
    | invalid =>
        by_cases hs : (status == 201) = true <;>
          simp [commit_repository, commitOutcome, hs] at h
    | json v =>
        by_cases hs : (status == 201) = true
        · rcases h4 : jIndex v "result" with e | rv
          · simp only [commit_repository, commitOutcome, hs, if_true, h4] at h
            rcases jIndex_error_shape v "result" e h4 with h5 | h5 <;> simp [h5] at h
          · by_cases ht : isSuccessToken rv = true <;>
              simp [commit_repository, commitOutcome, hs, h4, ht] at h
        · simp [commit_repository, commitOutcome, hs] at h

/-- C3 witness: the amended theorem applied at a concrete session and
response. -/
theorem c3_no_double_commit_guard_witness :
    (commit_repository configuredState (.ok 400 .invalid)).2.2 ≠
      some .invariantViolation :=
  c3_no_double_commit_guard.2 configuredState (.ok 400 .invalid)

/-- C4 (the claim is right, the code violates it): the error-reporting
`finally` block of `commit_repository` reads unset variables, and a
non-JSON response is not reported as its own distinct failure.  On the
HTTP-failure path `request` is still `None`, so the `finally` test
`request.status == 201` raises `AttributeError` (masking the pending
`HTTPError`); on the JSON-decode-failure path with status 201, `response`
was never assigned and reading it raises `UnboundLocalError`; with any
other status the pending `JSONDecodeError` is replaced by the generic
failure `Exception` — so the surfaced error is never the
`JSONDecodeError` itself. -/
theorem c4_commit_finally_reads_unset_variables :
    (∀ st, commitOutcome st .error =
      some (.attributeError "NoneType object has no attribute status")) ∧
    (∀ st, commitOutcome st (.ok 201 .invalid) = some (.nameError "response")) ∧
    (∀ st, commitOutcome st (.ok 400 .invalid) = some (.exn (commitFailMsg st))) ∧
    ((PyError.nameError "response").isMalformedResponse = false ∧
      (PyError.attributeError "NoneType object has no attribute status") ≠
        PyError.jsonDecodeError ∧
      (PyError.nameError "response") ≠ PyError.jsonDecodeError) :=
  ⟨fun _ => rfl, fun _ => rfl, fun _ => rfl, rfl, by decide, by decide⟩

/-- C2: commit succeeds exactly when the HTTP status is 201 and the JSON
body's `result` field equals the literal `"Success"`; when the body
parses and carries a `result` value but either condition fails (in
particular HTTP 201 with result `"Failure"`), the call raises the
commit-rejection `Exception` whose message names the session path — not
a malformed-response-class error. -/
theorem c2_commit_requires_201_and_success :
    (∀ (st : BcState) (net : HttpResponse),
      (commit_repository st net).2.2 = none ↔
        ∃ v, net = .ok 201 (.json v) ∧ jIndex v "result" = .ok (.str "Success")) ∧
    (∀ (st : BcState) (rp : String) (status : Nat) (v rv : JValue),
      st.repo_path = some rp →
      jIndex v "result" = .ok rv →
      ¬ (status = 201 ∧ isSuccessToken rv = true) →
      (commit_repository st (.ok status (.json v))).2.2 =
        some (.exn (commitFailMsg st)) ∧
      commitFailMsg st =
        "Failed to finalize repository " ++ rp ++ " in bridgecrew's platform" ∧
      (PyError.exn (commitFailMsg st)).isMalformedResponse = false) := by
  constructor
  · intro st net
    constructor
    · intro h
      cases net with
      | error => cases h
      | ok status body =>
        cases body with
        | invalid =>
            by_cases hs : (status == 201) = true <;>
              simp [commit_repository, commitOutcome, hs] at h
        | json v =>
          by_cases hs : (status == 201) = true
          · rcases h4 : jIndex v "result" with e | rv
            · simp [commit_repository, commitOutcome, hs, h4] at h
            · by_cases ht : isSuccessToken rv = true
              · refine ⟨v, ?_, ?_⟩
                · have : status = 201 := eq_of_beq hs
                  rw [this]
                · rw [h4]
                  cases rv with
                  | str s =>
                      have : s = "Success" := by
                        have hb : (s == "Success") = true := by
                          simpa [isSuccessToken] using ht
                        exact eq_of_beq hb
                      rw [this]
                  | null => simp [isSuccessToken] at ht
                  | bool b => simp [isSuccessToken] at ht
                  | num n => simp [isSuccessToken] at ht
                  | arr xs => simp [isSuccessToken] at ht
                  | obj fs => simp [isSuccessToken] at ht
              · simp [commit_repository, commitOutcome, hs, h4, ht] at h
          · simp [commit_repository, commitOutcome, hs] at h
    · rintro ⟨v, rfl, hv⟩
      simp [commit_repository, commitOutcome, hv, isSuccessToken]
  · intro st rp status v rv hrp h4 hnot
    refine ⟨?_, by rw [commitFailMsg, hrp]; rfl, rfl⟩
    by_cases hs : (status == 201) = true
    · have h201 : status = 201 := eq_of_beq hs
      have ht : isSuccessToken rv = false := by
        cases hb : isSuccessToken rv
        · rfl
        · exact absurd ⟨h201, hb⟩ hnot
      simp [commit_repository, commitOutcome, hs, h4, ht]
    · simp [commit_repository, commitOutcome, hs]

/-- C2 witness: HTTP 201 with body result Failure — the commit-rejection
error naming the session path, plus the success case via the iff. -/
theorem c2_commit_requires_201_and_success_witness :
    ((commit_repository configuredState
        (.ok 201 (.json (.obj [("result", .str "Failure")])))).2.2 =
      some (.exn (commitFailMsg configuredState)) ∧
    commitFailMsg configuredState =
      "Failed to finalize repository " ++ "acme/repo/ts" ++
        " in bridgecrew's platform" ∧
    (PyError.exn (commitFailMsg configuredState)).isMalformedResponse = false) ∧
    (commit_repository configuredState successNet).2.2 = none :=
  ⟨c2_commit_requires_201_and_success.2 configuredState "acme/repo/ts" 201
      (.obj [("result", .str "Failure")]) (.str "Failure") rfl rfl (by decide),
   (c2_commit_requires_201_and_success.1 configuredState successNet).mpr
      ⟨.obj [("result", .str "Success")], rfl, rfl⟩⟩

/-- Helper: the first-failure fold over an appended list runs the first
part and continues with the second only when nothing was raised. -/
theorem specPersist_append (rp b : String)
    (up : String → String → String → Option String)
    (xs ys : List (String × String)) :
    specPersist rp b up (xs ++ ys) =
      seqAbort (specPersist rp b up xs) (specPersist rp b up ys) := by
  induction xs with
  | nil => simp [specPersist, seqAbort]
  | cons x rest ih =>
      simp only [List.cons_append, specPersist]
      cases hp : _persist_file rp b up x.1 x.2 with
      | mk call oerr =>
        cases oerr with
        | none =>
            dsimp only
            simp only [List.append_eq]
            rw [ih]
            cases hA : (specPersist rp b up rest).2 <;>
              simp [seqAbort, hA]
        | some e =>
            dsimp only
            simp [seqAbort]

/-- Helper: the inner file loop of `persist_repository` equals the
first-failure fold over this directory's eligible files. -/
theorem processFiles_eq_specPersist (rp b rd : String)
    (up : String → String → String → Option String) (S : List String)
    (pre : List String) (fs : List String) :
    processFiles rp b rd up S pre fs =
      specPersist rp b up
        ((fs.filter (fun f => S.contains (splitext f).2)).map
          (fun f => (pjoin (rootPathOf rd pre) f, relPathOf pre f))) := by
  induction fs with
  | nil => rfl
  | cons f rest ih =>
      by_cases hf : S.contains (splitext f).2 = true
      · simp only [processFiles, hf, if_true, List.filter_cons, List.map_cons, specPersist]
        cases hp : _persist_file rp b up (pjoin (rootPathOf rd pre) f) (relPathOf pre f) with
        | mk call oerr => cases oerr <;> simp [ih]
      · simp only [processFiles, hf, if_false, List.filter_cons]
        simp [hf, ih]

/-- Helper: the walk loop of `persist_repository` equals the first-failure
fold over the flat list of all eligible files, in walk order. -/
theorem processWalk_eq_specPersist (rp b rd : String)
    (up : String → String → String → Option String) (S : List String)
    (entries : List (List String × List String)) :
    processWalk rp b rd up S entries =
      specPersist rp b up (eligibleEntries rd S entries) := by
  induction entries with
  | nil => rfl
  | cons e rest ih =>
      obtain ⟨pre, fs⟩ := e
      simp only [processWalk, eligibleEntries, List.flatMap_cons]
      rw [specPersist_append]
      rw [processFiles_eq_specPersist rp b rd up S pre fs]
      cases hI : specPersist rp b up
          ((fs.filter (fun f => S.contains (splitext f).2)).map
            (fun f => (pjoin (rootPathOf rd pre) f, relPathOf pre f))) with
      | mk calls oerr =>
        cases oerr with
        | none => simp [seqAbort, ih, eligibleEntries]
        | some e2 => simp [seqAbort]

/-- Helper: when every upload succeeds, the first-failure fold attempts
every entry, in order, and raises nothing. -/
theorem specPersist_all_ok (rp b : String)
    (up : String → String → String → Option String) (E : List (String × String))
    (h : ∀ e ∈ E, up e.1 b (pjoin rp e.2) = none) :
    specPersist rp b up E = (E.map (callOf rp b), none) := by
  induction E with
  | nil => rfl
  | cons x rest ih =>
      have hx := h x (List.mem_cons_self x rest)
      simp only [specPersist, _persist_file, hx]
      simp [ih (fun e he => h e (List.mem_cons_of_mem x he)), callOf]

/-- C5: when uploads succeed, `persist_repository` issues exactly one
upload call per file whose extension is in the supported set — under the
key equal to the session path joined with the file's path relative to
`root_dir` — and zero calls for every other file: the call list is
exactly the eligible-file list in walk order, mapped to its call. -/
theorem c5_persist_repository_uploads_exactly_supported
    (rp b rd : String) (up : String → String → String → Option String)
    (S : List String) (entries : List (List String × List String))
    (h : ∀ src bkt key, up src bkt key = none) :
    processWalk rp b rd up S entries =
      ((eligibleEntries rd S entries).map (callOf rp b), none) := by
  rw [processWalk_eq_specPersist]
  exact specPersist_all_ok rp b up _ (fun e _ => h e.1 b (pjoin rp e.2))

/-- C5 witness: the theorem applied at a concrete walk, with the call
list evaluated. -/
theorem c5_persist_repository_uploads_exactly_supported_witness :
    processWalk "acme/repo/ts" "bkt" "/repo" (fun _ _ _ => none) [".tf"] walkEx =
      ((eligibleEntries "/repo" [".tf"] walkEx).map (callOf "acme/repo/ts" "bkt"),
        none) ∧
    (eligibleEntries "/repo" [".tf"] walkEx).map (callOf "acme/repo/ts" "bkt") =
      [{ src := "/repo/main.tf", bucket := "bkt", key := "acme/repo/ts/main.tf" },
       { src := "/repo/modules/net.tf", bucket := "bkt",
         key := "acme/repo/ts/modules/net.tf" }] :=
  ⟨c5_persist_repository_uploads_exactly_supported "acme/repo/ts" "bkt" "/repo"
      (fun _ _ _ => none) [".tf"] walkEx (fun _ _ _ => rfl),
   rfl⟩

/-- Helper: the first-failure fold on a list whose uploads succeed up to
one failing entry attempts exactly the prefix and the failing entry, and
surfaces the failing path and cause. -/
theorem specPersist_first_failure (rp b : String)
    (up : String → String → String → Option String)
    (pre : List (String × String)) (bad : String × String)
    (post : List (String × String)) (cause : String)
    (hpre : ∀ e ∈ pre, up e.1 b (pjoin rp e.2) = none)
    (hbad : up bad.1 b (pjoin rp bad.2) = some cause) :
    specPersist rp b up (pre ++ bad :: post) =
      ((pre ++ [bad]).map (callOf rp b),
        some { filePath := bad.1, bucket := b, cause := cause }) := by
  induction pre with
  | nil => simp [specPersist, _persist_file, hbad, callOf]
  | cons x rest ih =>
      have hx := hpre x (List.mem_cons_self x rest)
      simp only [List.cons_append, specPersist, _persist_file, hx]
      simp only [List.append_eq]
      rw [ih (fun e he => hpre e (List.mem_cons_of_mem x he))]
      simp [callOf]

/-- C6: the first failing upload aborts `persist_repository`: every
eligible file before it is attempted exactly once, the failing file is
attempted once, no later file is attempted, and the surfaced error names
the failing file's path and the underlying cause. -/
theorem c6_first_upload_failure_aborts
    (rp b rd : String) (up : String → String → String → Option String)
    (S : List String) (entries : List (List String × List String))
    (pre : List (String × String)) (bad : String × String)
    (post : List (String × String)) (cause : String)
    (hE : eligibleEntries rd S entries = pre ++ bad :: post)
    (hpre : ∀ e ∈ pre, up e.1 b (pjoin rp e.2) = none)
    (hbad : up bad.1 b (pjoin rp bad.2) = some cause) :
    processWalk rp b rd up S entries =
      ((pre ++ [bad]).map (callOf rp b),
        some { filePath := bad.1, bucket := b, cause := cause }) := by
  rw [processWalk_eq_specPersist, hE]
  exact specPersist_first_failure rp b up pre bad post cause hpre hbad

/-- C6 witness: a five-file batch whose third upload fails — three
attempts in order, abort, and the error names the failing path and cause. -/
theorem c6_first_upload_failure_aborts_witness :
    processWalk "acme/repo/ts" "bkt" "/repo" uploadFailC [".tf"] walkEx5 =
      (([("/repo/a.tf", "a.tf"), ("/repo/b.tf", "b.tf")] ++
          [("/repo/c.tf", "c.tf")]).map (callOf "acme/repo/ts" "bkt"),
        some { filePath := "/repo/c.tf", bucket := "bkt", cause := "AccessDenied" }) ∧
    ([("/repo/a.tf", "a.tf"), ("/repo/b.tf", "b.tf")] ++
        [("/repo/c.tf", "c.tf")]).map (callOf "acme/repo/ts" "bkt") =
      [{ src := "/repo/a.tf", bucket := "bkt", key := "acme/repo/ts/a.tf" },
       { src := "/repo/b.tf", bucket := "bkt", key := "acme/repo/ts/b.tf" },
       { src := "/repo/c.tf", bucket := "bkt", key := "acme/repo/ts/c.tf" }] :=
  ⟨c6_first_upload_failure_aborts "acme/repo/ts" "bkt" "/repo" uploadFailC [".tf"]
      walkEx5 [("/repo/a.tf", "a.tf"), ("/repo/b.tf", "b.tf")]
      ("/repo/c.tf", "c.tf") [("/repo/d.tf", "d.tf"), ("/repo/e.tf", "e.tf")]
      "AccessDenied" rfl (by decide) rfl,
   rfl⟩

/-- Helper: merging anything into a scalar destination yields the source. -/
theorem merge_scalar_left (x : String) (v : MTree) : mergeT (.scalar x) v = v := by
  cases v <;> simp [mergeT]

/-- Helper: after merging one source entry, looking up its key finds the
merged value (recursively merged when the key existed, the source value
when it was new). -/
theorem lookup_updateOrAppend_self (ds : List (String × MTree)) (k : String) (v : MTree) :
    lookupKey (updateOrAppend ds k v) k =
      some ((lookupKey ds k).elim v (fun w => mergeT w v)) := by
  induction ds with
  | nil => simp [updateOrAppend, lookupKey]
  | cons e rest ih =>
      obtain ⟨k2, v2⟩ := e
      by_cases hk : (k2 == k) = true
      · simp [updateOrAppend, lookupKey, hk]
      · simp only [Bool.not_eq_true] at hk
        simp [updateOrAppend, lookupKey, hk, ih]

/-- Helper: merging one source entry does not affect lookups of other
keys. -/
theorem lookup_updateOrAppend_ne (ds : List (String × MTree)) (k k2 : String) (v : MTree)
    (hne : k2 ≠ k) : lookupKey (updateOrAppend ds k v) k2 = lookupKey ds k2 := by
  induction ds with
  | nil =>
      have : (k == k2) = false := by
        cases hb : k == k2
        · rfl
        · exact absurd (eq_of_beq hb).symm hne
      simp [updateOrAppend, lookupKey, this]
  | cons e rest ih =>
      obtain ⟨k3, v3⟩ := e
      by_cases hk : (k3 == k) = true
      · have hne2 : (k3 == k2) = false := by
          cases hb : k3 == k2
          · rfl
          · exact absurd ((eq_of_beq hb).symm.trans (eq_of_beq hk)) hne
        simp [updateOrAppend, lookupKey, hk, hne2]
      · simp only [Bool.not_eq_true] at hk
        by_cases hk2 : (k3 == k2) = true
        · simp [updateOrAppend, lookupKey, hk, hk2]
        · simp only [Bool.not_eq_true] at hk2
          simp [updateOrAppend, lookupKey, hk, hk2, ih]

/-- Helper: folding source entries whose keys do not include `k` does not
affect the lookup of `k`. -/
theorem lookup_mergeGo_notmem (es : List (String × MTree)) (k : String)
    (hnone : lookupKey es k = none) :
    ∀ X, lookupKey (mergeGo X es) k = lookupKey X k := by
  induction es with
  | nil => intro X; simp [mergeGo]
  | cons e rest ih =>
      obtain ⟨k3, v3⟩ := e
      intro X
      have hk3 : (k3 == k) = false := by
        cases hb : k3 == k
        · rfl
        · simp [lookupKey, hb] at hnone
      have hrest : lookupKey rest k = none := by
        simpa [lookupKey, hk3] using hnone
      have hne : k ≠ k3 := by
        intro he
        rw [he] at hk3
        simp at hk3
      rw [show mergeGo X ((k3, v3) :: rest) = mergeGo (updateOrAppend X k3 v3) rest
        from by simp [mergeGo]]
      rw [ih hrest (updateOrAppend X k3 v3)]
      exact lookup_updateOrAppend_ne X k3 k v3 hne

/-- Helper: a key absent per `keyNotMem` is absent per `lookupKey`. -/
theorem lookup_none_of_keyNotMem (es : List (String × MTree)) (k : String)
    (h : keyNotMem k es = true) : lookupKey es k = none := by
  induction es with
  | nil => rfl
  | cons e rest ih =>
      obtain ⟨k2, v2⟩ := e
      by_cases hk : (k2 == k) = true
      · simp [keyNotMem, hk] at h
      · simp only [Bool.not_eq_true] at hk
        simp only [keyNotMem, hk, if_false] at h
        simp [lookupKey, hk, ih h]

/-- Helper: the parts of well-formedness at a nonempty mapping node. -/
theorem WFb_node_parts (k : String) (v : MTree) (rest : List (String × MTree))
    (h : WFb (.node ((k, v) :: rest)) = true) :
    keyNotMem k rest = true ∧ WFb v = true ∧ WFb (.node rest) = true := by
  rw [show WFb (.node ((k, v) :: rest)) =
      (keyNotMem k rest && WFb v && WFb (.node rest)) from by simp [WFb]] at h
  simp only [Bool.and_eq_true] at h
  exact ⟨h.1.1, h.1.2, h.2⟩

/-- Helper: in a well-formed node, looked-up values are well-formed. -/
theorem WFb_lookup (es : List (String × MTree)) (k : String) (v : MTree)
    (hwf : WFb (.node es) = true) (h : lookupKey es k = some v) : WFb v = true := by
  induction es with
  | nil => cases h
  | cons e rest ih =>
      obtain ⟨k2, v2⟩ := e
      obtain ⟨_, hv2, hrest⟩ := WFb_node_parts k2 v2 rest hwf
      by_cases hk : (k2 == k) = true
      · simp only [lookupKey, hk, if_true, Option.some.injEq] at h
        rw [← h]; exact hv2
      · simp only [Bool.not_eq_true] at hk
        simp only [lookupKey, hk, Bool.false_eq_true, if_false] at h
        exact ih hrest h

/-- Helper: membership in an entry list means lookup does not miss. -/
theorem lookup_ne_none_of_mem (es : List (String × MTree)) (k : String) (v : MTree)
    (h : (k, v) ∈ es) : lookupKey es k ≠ none := by
  induction es with
  | nil => cases h
  | cons e rest ih =>
      obtain ⟨k2, v2⟩ := e
      rcases List.mem_cons.mp h with h1 | h1
      · injection h1 with hk hv
        subst hk
        simp [lookupKey]
      · by_cases hk : (k2 == k) = true
        · simp [lookupKey, hk]
        · simp only [Bool.not_eq_true] at hk
          simp [lookupKey, hk]
          exact fun hc => (ih h1) (by simpa using hc)

/-- Helper: in a well-formed node, each member entry is what lookup
finds for its key. -/
theorem lookup_self_of_WFb (es : List (String × MTree)) (k : String) (v : MTree)
    (hwf : WFb (.node es) = true) (h : (k, v) ∈ es) : lookupKey es k = some v := by
  induction es with
  | nil => cases h
  | cons e rest ih =>
      obtain ⟨k2, v2⟩ := e
      obtain ⟨hnm, _, hrest⟩ := WFb_node_parts k2 v2 rest hwf
      rcases List.mem_cons.mp h with h1 | h1
      · injection h1 with hk hv
        subst hk
        subst hv
        simp [lookupKey]
      · by_cases hk : (k2 == k) = true
        · exfalso
          have := lookup_none_of_keyNotMem rest k2 hnm
          rw [eq_of_beq hk] at this
          exact lookup_ne_none_of_mem rest k v h1 this
        · simp only [Bool.not_eq_true] at hk
          simp only [lookupKey, hk, Bool.false_eq_true, if_false]
          exact ih hrest h1

/-- Helper: folding well-formed source entries updates the lookup of a
present key to the merged value. -/
theorem lookup_mergeGo_mem (es : List (String × MTree)) (k : String) (sv : MTree)
    (hwf : WFb (.node es) = true) (hl : lookupKey es k = some sv) :
    ∀ X, lookupKey (mergeGo X es) k =
      some ((lookupKey X k).elim sv (fun w => mergeT w sv)) := by
  induction es with
  | nil => cases hl
  | cons e rest ih =>
      obtain ⟨k3, v3⟩ := e
      obtain ⟨hnm, _, hrest⟩ := WFb_node_parts k3 v3 rest hwf
      intro X
      rw [show mergeGo X ((k3, v3) :: rest) = mergeGo (updateOrAppend X k3 v3) rest
        from by simp [mergeGo]]
      by_cases hk : (k3 == k) = true
      · have hsv : sv = v3 := by
          simp only [lookupKey, hk, if_true, Option.some.injEq] at hl
          exact hl.symm
        have hknm : lookupKey rest k = none := by
          have := lookup_none_of_keyNotMem rest k3 hnm
          rwa [eq_of_beq hk] at this
        rw [lookup_mergeGo_notmem rest k hknm (updateOrAppend X k3 v3)]
        rw [eq_of_beq hk, hsv]
        exact lookup_updateOrAppend_self X k v3
      · simp only [Bool.not_eq_true] at hk
        simp only [lookupKey, hk, Bool.false_eq_true, if_false] at hl
        have hne : k ≠ k3 := by
          intro he; rw [he] at hk; simp at hk
        rw [ih hrest hl (updateOrAppend X k3 v3)]
        rw [lookup_updateOrAppend_ne X k3 k v3 hne]

/-- Helper: a path outside a document leads nowhere in it. -/
theorem outside_getPath_none (p : List String) :
    ∀ t, OutsideB t p = true → getPath t p = none := by
  induction p with
  | nil => intro t h; simp [OutsideB] at h
  | cons k p2 ih =>
      intro t h
      cases t with
      | scalar x => simp [OutsideB] at h
      | node es =>
        cases hl : lookupKey es k with
        | none => simp [getPath, hl]
        | some v =>
            have h2 : OutsideB v p2 = true := by
              simpa [OutsideB, hl] using h
            simp [getPath, hl, ih v h2]

/-- Helper: the merge leaves the destination unchanged along every path
outside the source map (the frame half of C7). -/
theorem mergeT_outside (p : List String) :
    ∀ (d s : MTree), WFb s = true → OutsideB s p = true →
      getPath (mergeT d s) p = getPath d p := by
  induction p with
  | nil => intro d s _ h; simp [OutsideB] at h
  | cons k p2 ih =>
      intro d s hwf h
      cases s with
      | scalar x => simp [OutsideB] at h
      | node es =>
        cases hl : lookupKey es k with
        | none =>
            cases d with
            | scalar y =>
                rw [show mergeT (.scalar y) (.node es) = .node es from by simp [mergeT]]
                simp [getPath, hl]
            | node ds =>
                rw [show mergeT (.node ds) (.node es) = .node (mergeGo ds es)
                  from by simp [mergeT]]
                have hmg := lookup_mergeGo_notmem es k hl ds
                cases hd : lookupKey ds k with
                | none => simp [getPath, hmg, hd]
                | some w => simp [getPath, hmg, hd]
        | some sv =>
            have h2 : OutsideB sv p2 = true := by
              simpa [OutsideB, hl] using h
            cases d with
            | scalar y =>
                rw [show mergeT (.scalar y) (.node es) = .node es from by simp [mergeT]]
                simp [getPath, hl, outside_getPath_none p2 sv h2]
            | node ds =>
                rw [show mergeT (.node ds) (.node es) = .node (mergeGo ds es)
                  from by simp [mergeT]]
                have hmg := lookup_mergeGo_mem es k sv hwf hl ds
                cases hd : lookupKey ds k with
                | none =>
                    rw [hd] at hmg
                    simp only [Option.elim] at hmg
                    simp [getPath, hmg, hd, outside_getPath_none p2 sv h2]
                | some w =>
                    rw [hd] at hmg
                    simp only [Option.elim] at hmg
                    have hwsv : WFb sv = true := WFb_lookup es k sv hwf hl
                    simp [getPath, hmg, hd, ih w sv hwsv h2]

/-- Helper: updating a key with a value that merges to no change rebuilds
the same list. -/
theorem updateOrAppend_noop (X : List (String × MTree)) (k : String) (v w : MTree)
    (hl : lookupKey X k = some w) (hm : mergeT w v = w) :
    updateOrAppend X k v = X := by
  induction X with
  | nil => cases hl
  | cons e rest ih =>
      obtain ⟨k2, v2⟩ := e
      by_cases hk : (k2 == k) = true
      · have hv2 : v2 = w := by
          simpa [lookupKey, hk] using hl
        subst hv2
        simp [updateOrAppend, hk, hm]
      · simp only [Bool.not_eq_true] at hk
        have hl2 : lookupKey rest k = some w := by
          simpa [lookupKey, hk] using hl
        simp [updateOrAppend, hk, ih hl2]

/-- Helper: folding source entries that all merge to no change leaves the
destination list unchanged. -/
theorem mergeGo_noop (es : List (String × MTree)) :
    ∀ X, (∀ k v, (k, v) ∈ es → ∃ w, lookupKey X k = some w ∧ mergeT w v = w) →
      mergeGo X es = X := by
  induction es with
  | nil => intro X _; simp [mergeGo]
  | cons e rest ih =>
      obtain ⟨k, v⟩ := e
      intro X h
      obtain ⟨w, hw, hm⟩ := h k v (List.mem_cons_self _ _)
      rw [show mergeGo X ((k, v) :: rest) = mergeGo (updateOrAppend X k v) rest
        from by simp [mergeGo]]
      rw [updateOrAppend_noop X k v w hw hm]
      exact ih X (fun k2 v2 hmem => h k2 v2 (List.mem_cons_of_mem _ hmem))

/-- Helper: self-merge of a value is the identity, given idempotence of
its own merges. -/
theorem mergeT_self (v : MTree)
    (hv : ∀ d, mergeT (mergeT d v) v = mergeT d v) : mergeT v v = v := by
  have h := hv (.scalar "")
  rwa [merge_scalar_left] at h

/-- Helper: refolding the same well-formed source entries a second time
changes nothing (the entry-list core of idempotence). -/
theorem mergeGo_idem (es : List (String × MTree)) (hwf : WFb (.node es) = true)
    (ihv : ∀ k v, (k, v) ∈ es → ∀ d, mergeT (mergeT d v) v = mergeT d v) :
    ∀ ds, mergeGo (mergeGo ds es) es = mergeGo ds es := by
  induction es with
  | nil => intro ds; simp [mergeGo]
  | cons e rest ih =>
      obtain ⟨k, v⟩ := e
      obtain ⟨hnm, _, hrest⟩ := WFb_node_parts k v rest hwf
      intro ds
      have hrl : lookupKey rest k = none := lookup_none_of_keyNotMem rest k hnm
      rw [show mergeGo ds ((k, v) :: rest) = mergeGo (updateOrAppend ds k v) rest
        from by simp [mergeGo]]
      rw [show mergeGo (mergeGo (updateOrAppend ds k v) rest) ((k, v) :: rest) =
          mergeGo (updateOrAppend (mergeGo (updateOrAppend ds k v) rest) k v) rest
        from by simp [mergeGo]]
      have h1 : lookupKey (mergeGo (updateOrAppend ds k v) rest) k =
          lookupKey (updateOrAppend ds k v) k :=
        lookup_mergeGo_notmem rest k hrl (updateOrAppend ds k v)
      have h2 := lookup_updateOrAppend_self ds k v
      have hvmem := ihv k v (List.mem_cons_self _ _)
      have h3 : mergeT ((lookupKey ds k).elim v (fun w => mergeT w v)) v =
          (lookupKey ds k).elim v (fun w => mergeT w v) := by
        cases hd : lookupKey ds k with
        | none => simpa [Option.elim] using mergeT_self v hvmem
        | some w0 => simpa [Option.elim] using hvmem w0
      have h4 : updateOrAppend (mergeGo (updateOrAppend ds k v) rest) k v =
          mergeGo (updateOrAppend ds k v) rest :=
        updateOrAppend_noop _ k v _ (h1.trans h2) h3
      rw [h4]
      exact ih hrest
        (fun k2 v2 hmem => ihv k2 v2 (List.mem_cons_of_mem _ hmem))
        (updateOrAppend ds k v)

/-- Helper: members of a node's entry list are smaller than the node. -/
theorem sizeOf_lt_of_mem (es : List (String × MTree)) (k : String) (v : MTree)
    (h : (k, v) ∈ es) : sizeOf v < sizeOf (MTree.node es) := by
  induction es with
  | nil => cases h
  | cons e rest ih =>
      rcases List.mem_cons.mp h with h1 | h1
      · subst h1
        simp only [MTree.node.sizeOf_spec, List.cons.sizeOf_spec, Prod.mk.sizeOf_spec]
        omega
      · have := ih h1
        simp only [MTree.node.sizeOf_spec] at this
        simp only [MTree.node.sizeOf_spec, List.cons.sizeOf_spec]
        omega

/-- Helper: idempotence of the structural merge, by strong induction on
the size of the source document. -/
theorem mergeT_idem_aux (n : Nat) :
    ∀ s : MTree, sizeOf s ≤ n → WFb s = true →
      ∀ d, mergeT (mergeT d s) s = mergeT d s := by
  induction n with
  | zero =>
      intro s hle
      exfalso
      cases s <;> simp_arith at hle
  | succ n ih =>
      intro s hle hwf d
      cases s with
      | scalar x => simp [mergeT]
      | node es =>
        have ihv : ∀ k v, (k, v) ∈ es → ∀ d2, mergeT (mergeT d2 v) v = mergeT d2 v := by
          intro k v hmem d2
          have hlt := sizeOf_lt_of_mem es k v hmem
          have hv : sizeOf v ≤ n := by omega
          exact ih v hv (WFb_lookup es k v hwf (lookup_self_of_WFb es k v hwf hmem)) d2
        cases d with
        | scalar y =>
            rw [show mergeT (.scalar y) (.node es) = .node es from by simp [mergeT]]
            rw [show mergeT (.node es) (.node es) = .node (mergeGo es es)
              from by simp [mergeT]]
            have : mergeGo es es = es := by
              apply mergeGo_noop
              intro k v hmem
              exact ⟨v, lookup_self_of_WFb es k v hwf hmem,
                mergeT_self v (ihv k v hmem)⟩
            rw [this]
        | node ds =>
            rw [show mergeT (.node ds) (.node es) = .node (mergeGo ds es)
              from by simp [mergeT]]
            rw [show mergeT (.node (mergeGo ds es)) (.node es) =
                .node (mergeGo (mergeGo ds es) es) from by simp [mergeT]]
            rw [mergeGo_idem es hwf ihv ds]

/-- Helper: idempotence of the structural merge for well-formed sources. -/
theorem mergeT_idem (s : MTree) (hwf : WFb s = true) (d : MTree) :
    mergeT (mergeT d s) s = mergeT d s :=
  mergeT_idem_aux (sizeOf s) s (Nat.le_refl _) hwf d

/-- C7: the metadata merge of `persist_scan_results` leaves the reduced
result unchanged at every path outside those named by the metadata path
map, and applying the same merge twice yields the same document as
applying it once, for any well-formed (duplicate-free, as Python dicts
are) metadata map. -/
theorem c7_merge_outside_frame_and_idempotent (d s : MTree) (hwf : WFb s = true) :
    (∀ (st : BcState) (reports : List ScanReport) (rf ef : List ScanReport → MTree),
      (persist_scan_results st reports rf ef).2 = mergeT (rf reports) (ef reports)) ∧
    (∀ p, OutsideB s p = true → getPath (mergeT d s) p = getPath d p) ∧
    mergeT (mergeT d s) s = mergeT d s :=
  ⟨fun _ _ _ _ => rfl, fun p hp => mergeT_outside p d s hwf hp, mergeT_idem s hwf d⟩

/-- C7 witness: the theorem applied at concrete documents, with the merge
evaluated: the sibling key `a` is untouched, the targeted sub-path
`b.x` is overwritten, and remerging changes nothing. -/
theorem c7_merge_outside_frame_and_idempotent_witness :
    (getPath (mergeT dEx sEx) ["a"] = getPath dEx ["a"]) ∧
    mergeT (mergeT dEx sEx) sEx = mergeT dEx sEx ∧
    mergeT dEx sEx = .node [("a", .scalar "1"), ("b", .node [("x", .scalar "3")])] :=
  ⟨(c7_merge_outside_frame_and_idempotent dEx sEx
      (by simp [WFb, keyNotMem, sEx])).2.1 ["a"] rfl,
   (c7_merge_outside_frame_and_idempotent dEx sEx
      (by simp [WFb, keyNotMem, sEx])).2.2,
   by simp [dEx, sEx, mergeT, mergeGo, updateOrAppend]⟩

/-- C4 witness: the evaluations at a concrete session. -/
theorem c4_commit_finally_reads_unset_variables_witness :
    commitOutcome configuredState .error =
      some (.attributeError "NoneType object has no attribute status") ∧
    commitOutcome configuredState (.ok 201 .invalid) = some (.nameError "response") ∧
    commitOutcome configuredState (.ok 400 .invalid) =
      some (.exn (commitFailMsg configuredState)) :=
  ⟨c4_commit_finally_reads_unset_variables.1 configuredState,
   c4_commit_finally_reads_unset_variables.2.1 configuredState,
   c4_commit_finally_reads_unset_variables.2.2.1 configuredState⟩

/-- C9 witness: the frame conditions applied at a concrete session. -/
theorem c9_frame_conditions_witness :
    (commit_repository configuredState successNet).1 = configuredState ∧
    (persist_scan_results configuredState [{ payload := "r" }]
        (fun _ => .node []) (fun _ => .node [])).1 =
      { configuredState with scan_reports := [{ payload := "r" }] } :=
  ⟨c9_frame_conditions.2.1 configuredState successNet,
   c9_frame_conditions.2.2 configuredState [{ payload := "r" }]
     (fun _ => .node []) (fun _ => .node [])⟩
